import Mathlib

/-!
Shallow embedding of `scripts/blog_agent.py` and `scripts/pr_reviewer.py`.

Python strings are modelled as Lean `String` (sequences of unicode code
points); the Python string methods used by the scripts are modelled on the
underlying character lists.  External collaborators (the GitHub API, the
inference API, the YAML and JSON parsers) are passed in as explicit function
parameters; the GitHub calls made by the publication and review steps are
recorded as event traces so that call counts and arguments can be verified.
-/

/-- The characters removed by Python `str.strip()` (ASCII whitespace). -/
def isPyWs (c : Char) : Bool :=
  c == ' ' || c == '\t' || c == '\n' || c == '\r' || c == '\x0b' || c == '\x0c'

/-- Python `str.strip()` on character lists. -/
def pyStripChars (l : List Char) : List Char :=
  ((l.dropWhile isPyWs).reverse.dropWhile isPyWs).reverse

/-- Python `s.strip()`. -/
def pyStrip (s : String) : String := String.mk (pyStripChars s.data)

/-- Python `s.startswith(p)`. -/
def pyStartsWith (s p : String) : Bool := p.data.isPrefixOf s.data

/-- Python `s.endswith(p)`. -/
def pyEndsWith (s p : String) : Bool := p.data.isSuffixOf s.data

/-- Python slicing `s[:n]`. -/
def pyTake (s : String) (n : Nat) : String := String.mk (s.data.take n)

/-- Numeric value of a list of decimal digit characters. -/
def digitsToNat (ds : List Char) : Nat :=
  ds.foldl (fun a c => a * 10 + (c.toNat - 48)) 0

/-- Python `int(s)` for a string argument: optional surrounding whitespace,
optional sign, decimal digits.  `none` models a raised `ValueError`. -/
def pyStrToInt (s : String) : Option Int :=
  match pyStripChars s.data with
  | [] => none
  | '-' :: ds =>
    if !ds.isEmpty && ds.all Char.isDigit then some (-(digitsToNat ds : Int)) else none
  | '+' :: ds =>
    if !ds.isEmpty && ds.all Char.isDigit then some ((digitsToNat ds : Int)) else none
  | ds =>
    if ds.all Char.isDigit then some ((digitsToNat ds : Int)) else none

/-- `POSTS_DIR` from `scripts/blog_agent.py`. -/
def POSTS_DIR : String := "posts"

/-- `MAIN_BRANCH` from `scripts/blog_agent.py`. -/
def MAIN_BRANCH : String := "main"

/-- `POST_FILENAME` from `scripts/blog_agent.py`. -/
def POST_FILENAME : String := "README.md"

/-- A YAML value in a frontmatter mapping (the shapes the scripts use:
scalars and lists of scalars). -/
inductive YamlVal
  | str (s : String)
  | list (xs : List String)
deriving DecidableEq

/-- A parsed frontmatter mapping (a Python `dict`). -/
abbrev Fm := List (String × YamlVal)

/-- Index of the first occurrence of `sep` in a character list. -/
def firstOcc (sep : List Char) : List Char → Option Nat
  | [] => if sep.isEmpty then some 0 else none
  | c :: rest =>
    if sep.isPrefixOf (c :: rest) then some 0
    else (firstOcc sep rest).map (· + 1)

/-- Python `s.split(sep, maxsplit)` on character lists: repeatedly cut at the
leftmost occurrence of `sep`, at most `maxsplit` times. -/
def splitChars (sep : List Char) : Nat → List Char → List (List Char)
  | 0, l => [l]
  | k + 1, l =>
    match firstOcc sep l with
    | none => [l]
    | some i => l.take i :: splitChars sep k (l.drop (i + sep.length))

/-- Python `s.split(sep, maxsplit)`. -/
def pySplit (s sep : String) (maxsplit : Nat) : List String :=
  (splitChars sep.data maxsplit s.data).map String.mk

/-- Whether the document contains two disjoint occurrences of the `---`
delimiter (so that splitting on it can produce three parts). -/
def hasTwoDelimsB (l : List Char) : Bool :=
  (List.range l.length).any fun i =>
    "---".data.isPrefixOf (l.drop i) &&
    (List.range l.length).any fun j =>
      Nat.ble (i + 3) j && "---".data.isPrefixOf (l.drop j)

/-- `parse_frontmatter` from `scripts/blog_agent.py`.  The YAML parser
`yaml.safe_load` is abstract: `.error` models a raised `yaml.YAMLError`,
`.ok none` models a `None`/falsy result (replaced by `{}` through `or {}`),
and `.ok (some fm)` models a successfully parsed key-value mapping.
Successful non-mapping YAML parses are outside the model. -/
def parse_frontmatter (safeLoad : String → Except Unit (Option Fm)) (content : String) : Fm :=
  if pyStartsWith content "---" then
    let parts := pySplit content "---" 2
    if parts.length < 3 then []
    else
      match safeLoad (parts.getD 1 "") with
      | .error _ => []
      | .ok none => []
      | .ok (some fm) => fm
  else []

/-- A repository content item as surfaced by the GitHub listing call
(`repo.get_contents(POSTS_DIR)`): a name and a type tag (`"dir"`/`"file"`). -/
structure CItem where
  name : String
  type : String
deriving DecidableEq

/-- One entry of the list built by `get_existing_posts` (a Python dict with
the keys `dirname`, `title`, `tags`, `categories`, `description`). -/
structure Post where
  dirname : String
  title : YamlVal
  tags : YamlVal
  categories : YamlVal
  description : YamlVal
deriving DecidableEq

/-- Python `fm.get(key, default)` on a frontmatter mapping. -/
def fmGet (fm : Fm) (key : String) (dflt : YamlVal) : YamlVal :=
  match fm.find? (fun kv => kv.1 == key) with
  | some kv => kv.2
  | none => dflt

/-- The path `f"{POSTS_DIR}/{item.name}/{POST_FILENAME}"`. -/
def postPath (item : CItem) : String :=
  POSTS_DIR ++ "/" ++ item.name ++ "/" ++ POST_FILENAME

/-- The dictionary appended for one directory by `get_existing_posts`. -/
def mkPost (safeLoad : String → Except Unit (Option Fm)) (item : CItem) (content : String) : Post :=
  let fm := parse_frontmatter safeLoad content
  { dirname := item.name
    title := fmGet fm "title" (YamlVal.str item.name)
    tags := fmGet fm "tags" (YamlVal.list [])
    categories := fmGet fm "categories" (YamlVal.list [])
    description := fmGet fm "description" (YamlVal.str "") }

/-- The `for item in sorted(items, ...)` loop body of `get_existing_posts`:
non-directories are skipped, a directory whose `README.md` fetch raises is
skipped (`except GithubException: pass`), otherwise a post entry is added. -/
def posts_loop (safeLoad : String → Except Unit (Option Fm))
    (getFile : String → Except Unit String) : List CItem → List Post
  | [] => []
  | item :: rest =>
    if item.type ≠ "dir" then posts_loop safeLoad getFile rest
    else
      match getFile (postPath item) with
      | .error _ => posts_loop safeLoad getFile rest
      | .ok c => mkPost safeLoad item c :: posts_loop safeLoad getFile rest

/-- `sorted(items, key=lambda x: x.name)`. -/
def sortByName (items : List CItem) : List CItem :=
  items.mergeSort (fun a b => decide (a.name ≤ b.name))

/-- `get_existing_posts` from `scripts/blog_agent.py`.  `getDir` models
`repo.get_contents(POSTS_DIR)` (`.error` = `GithubException`, i.e. the posts
root is absent) and `getFile` models the per-directory content fetch. -/
def get_existing_posts (safeLoad : String → Except Unit (Option Fm))
    (getDir : Except Unit (List CItem)) (getFile : String → Except Unit String) : List Post :=
  match getDir with
  | .error _ => []
  | .ok items => posts_loop safeLoad getFile (sortByName items)

/-- The value contributed by a single listing item, for stating what
`posts_loop` computes. -/
def processItem (safeLoad : String → Except Unit (Option Fm))
    (getFile : String → Except Unit String) (item : CItem) : Option Post :=
  if item.type ≠ "dir" then none
  else
    match getFile (postPath item) with
    | .error _ => none
    | .ok c => some (mkPost safeLoad item c)

/-- `re.match(r"^(\d+)", dirname)` followed by `int(...)`, as used by
`get_next_number` (ASCII digits). -/
def leadingNumber (dirname : String) : Option Nat :=
  let ds := dirname.data.takeWhile Char.isDigit
  if ds.isEmpty then none else some (digitsToNat ds)

/-- `get_next_number` from `scripts/blog_agent.py`:
`max(numbers, default=0) + 1`. -/
def get_next_number (posts : List Post) : Nat :=
  ((posts.filterMap fun p => leadingNumber p.dirname).max?).getD 0 + 1

/-- The substitution `re.sub(r"^(backtick-fence)(?:json)?\n?", "", raw)` from
`choose_next_topic`: strip one leading code-fence marker, an optional `json`
language tag, and an optional following newline. -/
def stripLeadingFenceChars : List Char → List Char
  | '\x60' :: '\x60' :: '\x60' :: 'j' :: 's' :: 'o' :: 'n' :: '\n' :: rest => rest
  | '\x60' :: '\x60' :: '\x60' :: 'j' :: 's' :: 'o' :: 'n' :: rest => rest
  | '\x60' :: '\x60' :: '\x60' :: '\n' :: rest => rest
  | '\x60' :: '\x60' :: '\x60' :: rest => rest
  | l => l

/-- Helper for the trailing-fence substitution, operating on the reversed
character list. -/
def stripTrailAux : List Char → List Char
  | '\x60' :: '\x60' :: '\x60' :: '\n' :: rest => rest.reverse
  | '\x60' :: '\x60' :: '\x60' :: rest => rest.reverse
  | l => l.reverse

/-- The substitution `re.sub(r"\n?(backtick-fence)$", "", raw)` from
`choose_next_topic`: strip one trailing code-fence marker and an optional
newline before it (the input has already been stripped of trailing
whitespace, so `$` is the end of the string). -/
def stripTrailingFenceChars (l : List Char) : List Char :=
  stripTrailAux l.reverse

/-- The parsing tail of `choose_next_topic` from `scripts/blog_agent.py`:
`strip()` the model response, remove one leading and one trailing code-fence
marker, then `json.loads` the remainder.  The JSON decoder is abstract;
`.error` models a raised `json.JSONDecodeError`, which the script does not
catch. -/
def choose_next_topic_parse {J : Type} (jsonLoads : String → Except Unit J)
    (response : String) : Except Unit J :=
  jsonLoads (String.mk (stripTrailingFenceChars (stripLeadingFenceChars (pyStripChars response.data))))

/-- A topic proposal (the fields of the JSON object that
`create_pull_request` reads). -/
structure Topic where
  title : String
  slug : String
  description : String
  tags : List String
deriving DecidableEq

/-- `f"{n:04d}"` for a natural number. -/
def pad4 (n : Nat) : String :=
  String.mk (List.replicate (4 - (toString n).length) '0') ++ toString n

/-- A GitHub API call made by `create_pull_request`, recorded with the
arguments relevant to the publication contract. -/
inductive GhEvent
  | get_branch (name : String)
  | create_git_ref (ref : String) (sha : String)
  | create_file (path : String) (message : String) (content : String) (branch : String)
  | create_pull (base : String) (head : String) (title : String) (draft : Bool)
deriving DecidableEq

/-- `true` exactly on `create_git_ref` events. -/
def isCreateRefEvt : GhEvent → Bool
  | .create_git_ref _ _ => true
  | _ => false

/-- `true` exactly on `create_file` events. -/
def isCreateFileEvt : GhEvent → Bool
  | .create_file _ _ _ _ => true
  | _ => false

/-- `true` exactly on `create_pull` events. -/
def isCreatePullEvt : GhEvent → Bool
  | .create_pull _ _ _ _ => true
  | _ => false

/-- `create_pull_request` from `scripts/blog_agent.py`, as the trace of
GitHub API calls it makes.  `branchTip` models `repo.get_branch(...).commit.sha`
and `today` models `datetime.now().strftime("%Y%m%d")`. -/
def create_pull_request (branchTip : String → String) (today : String)
    (post_number : Nat) (topic : Topic) (content : String) : List GhEvent :=
  let dirname := pad4 post_number ++ "-" ++ topic.slug
  let file_path := POSTS_DIR ++ "/" ++ dirname ++ "/" ++ POST_FILENAME
  let branch := "agent/post-" ++ today ++ "-" ++ topic.slug
  let base_sha := branchTip MAIN_BRANCH
  [GhEvent.get_branch MAIN_BRANCH,
   GhEvent.create_git_ref ("refs/heads/" ++ branch) base_sha,
   GhEvent.create_file file_path ("feat(blog): add post " ++ dirname) content branch,
   GhEvent.create_pull MAIN_BRANCH branch ("[Blog Agent] " ++ topic.title) false]

/-- The file filter of `get_post_content` from `scripts/pr_reviewer.py`:
`f.filename.startswith("posts/") and f.filename.endswith("README.md")`. -/
def isPostFile (f : String) : Bool :=
  pyStartsWith f "posts/" && pyEndsWith f "README.md"

/-- `get_post_content` from `scripts/pr_reviewer.py`.  `contents p ref`
models `repo.get_contents(p, ref=...).decoded_content.decode("utf-8")` and
`headSha` models `pr.head.sha`; `files` is the pull request's changed-file
list in order. -/
def get_post_content (contents : String → String → String) (headSha : String) :
    List String → String × String
  | [] => ("", "")
  | f :: rest =>
    if isPostFile f then (f, contents f headSha)
    else get_post_content contents headSha rest

/-- The final path component of a path (the claim's notion of a file's
name). -/
def baseName (p : String) : String :=
  String.mk ((p.data.reverse.takeWhile (fun c => !(c == '/'))).reverse)

/-- An externally visible action of the reviewer's `main`. -/
inductive ReviewEvent
  | infer (sentContent : String)
  | comment (path : String)
deriving DecidableEq

/-- The decision structure of `main` from `scripts/pr_reviewer.py`, as the
trace of inference and comment-posting calls: after `get_post_content`, an
empty (falsy) content aborts the run; otherwise one chat completion is
requested with `content[:12000]` embedded in the prompt and one issue
comment is posted. -/
def reviewer_run (contents : String → String → String) (headSha : String)
    (files : List String) : List ReviewEvent :=
  let pc := get_post_content contents headSha files
  if pc.2 = "" then []
  else [ReviewEvent.infer (pyTake pc.2 12000), ReviewEvent.comment pc.1]

/-- A Python exception class, for the `CONTENT_MAX_TOKENS` startup code. -/
inductive PyErr
  | typeError
  | valueError
deriving DecidableEq

/-- The `CONTENT_MAX_TOKENS` startup assignment from `scripts/pr_reviewer.py`:
`int(os.environ.get("CONTENT_MAX_TOKENS")) or 8192` guarded by
`except ValueError`.  When the variable is missing, `os.environ.get` yields
`None` and `int(None)` raises `TypeError`, which the `except ValueError`
clause does not catch, so the error escapes; when the value is non-numeric,
`int` raises `ValueError` and the handler assigns the default `8192`; a
parsed `0` is falsy, so `or 8192` also yields the default. -/
def content_max_tokens (env : Option String) : Except PyErr Int :=
  match env with
  | none => Except.error PyErr.typeError
  | some v =>
    match pyStrToInt v with
    | none => Except.ok 8192
    | some n => Except.ok (if n = 0 then 8192 else n)

/-- A concrete YAML-parser stand-in used by witness theorems. -/
def sampleLoad : String → Except Unit (Option Fm) := fun s =>
  if s = "\nt: v\n" then Except.ok (some [("t", YamlVal.str "v")]) else Except.error ()

/-- A concrete per-post file fetcher used by witness theorems. -/
def sampleGetFile : String → Except Unit String := fun p =>
  if p = "posts/0001-a/README.md" then Except.ok "---\nt: v\n---\nbody" else Except.error ()

/-! ### Helper lemmas -/

theorem get_post_content_eq_find (contents : String → String → String) (sha : String)
    (files : List String) :
    get_post_content contents sha files =
      match files.find? isPostFile with
      | some f => (f, contents f sha)
      | none => ("", "") := by
  induction files with
  | nil => rfl
  | cons f rest ih =>
    by_cases h : isPostFile f = true
    · rw [List.find?_cons_of_pos _ h]
      simp [get_post_content, h]
    · rw [List.find?_cons_of_neg _ h]
      simp only [Bool.not_eq_true] at h
      simp [get_post_content, h, ih]

/-! ### Claim theorems -/

/-- C1: for every list of existing posts, `get_next_number` returns the
maximum of the leading integers parsed from the posts' directory names plus
one, and returns `1` when the list is empty or when no directory name begins
with a digit sequence. -/
theorem get_next_number_spec (posts : List Post) :
    (get_next_number posts =
        match (posts.filterMap fun p => leadingNumber p.dirname).max? with
        | some m => m + 1
        | none => 1)
      ∧ (posts = [] → get_next_number posts = 1)
      ∧ ((∀ p ∈ posts, leadingNumber p.dirname = none) → get_next_number posts = 1) := by
  refine ⟨?_, ?_, ?_⟩
  · unfold get_next_number
    cases h : (posts.filterMap fun p => leadingNumber p.dirname).max? <;> simp [h]
  · rintro rfl; rfl
  · intro h
    unfold get_next_number
    rw [List.filterMap_eq_nil_iff.mpr h]
    rfl

/-- Witness for C1 at concrete inputs: a singleton list whose directory name
has no leading digits yields `1`. -/
theorem get_next_number_spec_witness :
    get_next_number
        [⟨"abc", YamlVal.str "t", YamlVal.list [], YamlVal.list [], YamlVal.str ""⟩] = 1 :=
  (get_next_number_spec _).2.2 (by decide)

/-- C5 (amended): `get_post_content` returns the path and head-commit content
of the first changed file, in the pull request's changed-file order, whose
path starts with `posts/` and ends with the string `README.md` (a suffix
match on the whole path, not an equality test on the file's name), and
`("", "")` when no changed file matches. -/
theorem get_post_content_first_match (contents : String → String → String)
    (headSha : String) (files : List String) :
    get_post_content contents headSha files =
      match files.find? isPostFile with
      | some f => (f, contents f headSha)
      | none => ("", "") :=
  get_post_content_eq_find contents headSha files

/-- C5 counterexample: a changed file whose name is `XREADME.md` (not the
fixed document filename `README.md`) is nevertheless selected, because the
code tests `endswith("README.md")` on the whole path. -/
theorem get_post_content_name_counterexample :
    (get_post_content (fun _ _ => "body") "sha" ["posts/0001-intro/XREADME.md"]).1
        = "posts/0001-intro/XREADME.md"
      ∧ baseName "posts/0001-intro/XREADME.md" ≠ "README.md" :=
  ⟨rfl, by decide⟩

/-- C6: when no changed file matches a posts-root document, the file
selection returns empty path and empty content rather than raising, and the
review run performs zero inference calls and zero comment-posting calls. -/
theorem reviewer_no_matching_file (contents : String → String → String) (headSha : String)
    (files : List String) (h : ∀ f ∈ files, isPostFile f = false) :
    get_post_content contents headSha files = ("", "")
      ∧ reviewer_run contents headSha files = [] := by
  have hf : files.find? isPostFile = none := by
    rw [List.find?_eq_none]
    intro x hx
    simp [h x hx]
  have h1 : get_post_content contents headSha files = ("", "") := by
    rw [get_post_content_eq_find, hf]
  exact ⟨h1, by simp [reviewer_run, h1]⟩

/-- Witness for C6 at a concrete input: a pull request whose only changed
file is outside the posts root. -/
theorem reviewer_no_matching_file_witness :
    get_post_content (fun _ _ => "x") "sha" ["src/main.rs"] = ("", "")
      ∧ reviewer_run (fun _ _ => "x") "sha" ["src/main.rs"] = [] :=
  reviewer_no_matching_file _ _ _ (by decide)

/-- C10: when the first matching changed file exists but its decoded content
is the empty string, the review run aborts exactly as in the
no-matching-file case (zero inference calls and zero comment-posting calls),
even though a matching, non-empty file path was found and returned. -/
theorem reviewer_empty_content (contents : String → String → String) (headSha : String)
    (files : List String) (f : String)
    (h1 : files.find? isPostFile = some f) (h2 : contents f headSha = "") :
    get_post_content contents headSha files = (f, "")
      ∧ f ≠ ""
      ∧ reviewer_run contents headSha files = [] := by
  have hgp : get_post_content contents headSha files = (f, "") := by
    rw [get_post_content_eq_find, h1]
    simp [h2]
  have hpf : isPostFile f = true := List.find?_some h1
  have hne : f ≠ "" := fun hf => absurd (hf ▸ hpf) (by decide)
  exact ⟨hgp, hne, by simp [reviewer_run, hgp]⟩

/-- Witness for C10 at a concrete input: the matching file
`posts/0001-intro/README.md` decodes to the empty string. -/
theorem reviewer_empty_content_witness :
    get_post_content (fun _ _ => "") "sha" ["posts/0001-intro/README.md"]
        = ("posts/0001-intro/README.md", "")
      ∧ "posts/0001-intro/README.md" ≠ ""
      ∧ reviewer_run (fun _ _ => "") "sha" ["posts/0001-intro/README.md"] = [] :=
  reviewer_empty_content _ _ _ _ (by decide) rfl

/-- C7 (code bug): the configured truncation budget is parsed but never
used; the prompt embeds `content[:12000]` with a hardcoded limit, so with
`CONTENT_MAX_TOKENS=5` a ten-character post is sent whole, exceeding the
configured budget. -/
theorem review_truncation_bug :
    content_max_tokens (some "5") = Except.ok 5
      ∧ reviewer_run (fun _ _ => "0123456789") "headsha" ["posts/0001-intro/README.md"]
          = [ReviewEvent.infer "0123456789", ReviewEvent.comment "posts/0001-intro/README.md"]
      ∧ ¬((pyTake "0123456789" 12000).length ≤ 5) :=
  ⟨rfl, by decide, by decide⟩

/-- C8 (code bug): with the environment variable missing, the startup
assignment evaluates `int(None)`, raising `TypeError`, which the
`except ValueError` handler does not catch, so startup fails instead of
falling back to the default; a non-numeric (or empty) value does fall back
to `8192`, and a numeric value is used. -/
theorem content_max_tokens_bug :
    content_max_tokens none = Except.error PyErr.typeError
      ∧ content_max_tokens (some "notanumber") = Except.ok 8192
      ∧ content_max_tokens (some "") = Except.ok 8192
      ∧ content_max_tokens (some "4096") = Except.ok 4096 :=
  ⟨rfl, rfl, rfl, rfl⟩

/-- C2: with zero existing posts and a topic whose slug is `intro`, the
publication step reads the main branch's tip commit, creates exactly one
branch reference from that commit, creates exactly one file at
`posts/0001-intro/README.md` on that branch, and opens exactly one pull
request whose base is the main branch. -/
theorem create_pull_request_spec (branchTip : String → String) (today : String)
    (t d : String) (tags : List String) (content : String) :
    create_pull_request branchTip today (get_next_number []) ⟨t, "intro", d, tags⟩ content
        = [GhEvent.get_branch "main",
           GhEvent.create_git_ref ("refs/heads/" ++ ("agent/post-" ++ today ++ "-" ++ "intro"))
             (branchTip "main"),
           GhEvent.create_file "posts/0001-intro/README.md" "feat(blog): add post 0001-intro"
             content ("agent/post-" ++ today ++ "-" ++ "intro"),
           GhEvent.create_pull "main" ("agent/post-" ++ today ++ "-" ++ "intro")
             ("[Blog Agent] " ++ t) false]
      ∧ (create_pull_request branchTip today (get_next_number []) ⟨t, "intro", d, tags⟩
          content).countP isCreateRefEvt = 1
      ∧ (create_pull_request branchTip today (get_next_number []) ⟨t, "intro", d, tags⟩
          content).countP isCreateFileEvt = 1
      ∧ (create_pull_request branchTip today (get_next_number []) ⟨t, "intro", d, tags⟩
          content).countP isCreatePullEvt = 1 :=
  ⟨rfl, rfl, rfl, rfl⟩

theorem posts_loop_eq_filterMap (safeLoad : String → Except Unit (Option Fm))
    (getFile : String → Except Unit String) (items : List CItem) :
    posts_loop safeLoad getFile items = items.filterMap (processItem safeLoad getFile) := by
  induction items with
  | nil => rfl
  | cons item rest ih =>
    by_cases h : item.type = "dir"
    · cases hg : getFile (postPath item) with
      | error e => simp [posts_loop, processItem, h, hg, ih]
      | ok c => simp [posts_loop, processItem, h, hg, ih]
    · simp [posts_loop, processItem, h, ih]

/-- C9: when the posts root is absent (the listing call raises), the reader
returns the empty list instead of failing; otherwise it returns exactly the
entries contributed by the sorted listing items, and a subdirectory whose
document fetch raises is skipped without affecting the other entries of the
returned list. -/
theorem get_existing_posts_spec (safeLoad : String → Except Unit (Option Fm))
    (getDir : Except Unit (List CItem)) (getFile : String → Except Unit String) :
    (∀ e : Unit, getDir = Except.error e →
        get_existing_posts safeLoad getDir getFile = [])
      ∧ (∀ items : List CItem, getDir = Except.ok items →
          get_existing_posts safeLoad getDir getFile
            = (sortByName items).filterMap (processItem safeLoad getFile))
      ∧ (∀ (l1 l2 : List CItem) (item : CItem), item.type = "dir" →
          getFile (postPath item) = Except.error () →
          posts_loop safeLoad getFile (l1 ++ item :: l2)
            = posts_loop safeLoad getFile (l1 ++ l2)) := by
  refine ⟨?_, ?_, ?_⟩
  · rintro e rfl
    rfl
  · rintro items rfl
    simp [get_existing_posts, posts_loop_eq_filterMap]
  · intro l1 l2 item hdir hf
    induction l1 with
    | nil => simp [posts_loop, hdir, hf]
    | cons a l1 ih =>
      by_cases h : a.type = "dir"
      · cases hg : getFile (postPath a) with
        | error e => simp [posts_loop, h, hg, ih]
        | ok c => simp [posts_loop, h, hg, ih]
      · simp [posts_loop, h, ih]

/-- Witness for C9 at concrete inputs: an absent posts root yields zero
posts, and a listing containing a directory without a readable document
yields the same posts as the listing without it. -/
theorem get_existing_posts_spec_witness :
    get_existing_posts sampleLoad (Except.error ()) sampleGetFile = []
      ∧ posts_loop sampleLoad sampleGetFile [CItem.mk "0001-a" "dir", CItem.mk "0002-b" "dir"]
          = posts_loop sampleLoad sampleGetFile [CItem.mk "0001-a" "dir"] :=
  ⟨(get_existing_posts_spec sampleLoad (Except.error ()) sampleGetFile).1 () rfl,
   (get_existing_posts_spec sampleLoad (Except.error ()) sampleGetFile).2.2
     [CItem.mk "0001-a" "dir"] [] (CItem.mk "0002-b" "dir") rfl rfl⟩

theorem dropWhile_bt (l : List Char) : List.dropWhile isPyWs ('\x60' :: l) = '\x60' :: l := rfl

theorem stripLeading_json_nl (rest : List Char) :
    stripLeadingFenceChars ('\x60':: '\x60':: '\x60':: 'j':: 's':: 'o':: 'n':: '\n'::rest) = rest := rfl

theorem stripLeading_nl (rest : List Char) :
    stripLeadingFenceChars ('\x60':: '\x60':: '\x60':: '\n'::rest) = rest := rfl

theorem stripTrailAux_nl (rest : List Char) :
    stripTrailAux ('\x60':: '\x60':: '\x60':: '\n'::rest) = rest.reverse := rfl

/-- C4: topic-response parsing strips surrounding whitespace, one leading
code-fence marker (with or without the `json` language tag) and one trailing
code-fence marker, then hands the remainder to the JSON decoder; the
decoder's outcome (decoded object or decode failure) is returned unchanged,
so a decode failure propagates uncaught. -/
theorem choose_next_topic_parse_spec {J : Type} (jl : String → Except Unit J) (body : String) :
    (∀ r : String, choose_next_topic_parse jl r
        = jl (String.mk (stripTrailingFenceChars (stripLeadingFenceChars (pyStripChars r.data)))))
      ∧ choose_next_topic_parse jl ("```json\n" ++ body ++ "\n```") = jl body
      ∧ choose_next_topic_parse jl ("```\n" ++ body ++ "\n```") = jl body := by
  obtain ⟨bl⟩ := body
  refine ⟨fun r => rfl, ?_, ?_⟩
  · have hdata : ("```json\n" ++ String.mk bl ++ "\n```").data
        = '\x60':: '\x60':: '\x60':: 'j':: 's':: 'o':: 'n':: '\n'::(bl ++ ['\n','\x60','\x60','\x60']) := rfl
    have h2 : ('\x60':: '\x60':: '\x60':: 'j':: 's':: 'o':: 'n':: '\n'::(bl ++ ['\n','\x60','\x60','\x60'])).reverse
        = '\x60':: '\x60':: '\x60':: '\n'::(bl.reverse ++ ['\n','n','o','s','j','\x60','\x60','\x60']) := by
      simp
    have hstrip :
        pyStripChars ('\x60':: '\x60':: '\x60':: 'j':: 's':: 'o':: 'n':: '\n'::(bl ++ ['\n','\x60','\x60','\x60']))
          = '\x60':: '\x60':: '\x60':: 'j':: 's':: 'o':: 'n':: '\n'::(bl ++ ['\n','\x60','\x60','\x60']) := by
      unfold pyStripChars
      rw [dropWhile_bt, h2, dropWhile_bt, ← h2, List.reverse_reverse]
    unfold choose_next_topic_parse
    rw [hdata, hstrip, stripLeading_json_nl]
    unfold stripTrailingFenceChars
    rw [show (bl ++ ['\n','\x60','\x60','\x60']).reverse = '\x60':: '\x60':: '\x60':: '\n'::bl.reverse
        from by simp,
      stripTrailAux_nl, List.reverse_reverse]
  · have hdata : ("```\n" ++ String.mk bl ++ "\n```").data
        = '\x60':: '\x60':: '\x60':: '\n'::(bl ++ ['\n','\x60','\x60','\x60']) := rfl
    have h2 : ('\x60':: '\x60':: '\x60':: '\n'::(bl ++ ['\n','\x60','\x60','\x60'])).reverse
        = '\x60':: '\x60':: '\x60':: '\n'::(bl.reverse ++ ['\n','\x60','\x60','\x60']) := by
      simp
    have hstrip : pyStripChars ('\x60':: '\x60':: '\x60':: '\n'::(bl ++ ['\n','\x60','\x60','\x60']))
        = '\x60':: '\x60':: '\x60':: '\n'::(bl ++ ['\n','\x60','\x60','\x60']) := by
      unfold pyStripChars
      rw [dropWhile_bt, h2, dropWhile_bt, ← h2, List.reverse_reverse]
    unfold choose_next_topic_parse
    rw [hdata, hstrip, stripLeading_nl]
    unfold stripTrailingFenceChars
    rw [show (bl ++ ['\n','\x60','\x60','\x60']).reverse = '\x60':: '\x60':: '\x60':: '\n'::bl.reverse
        from by simp,
      stripTrailAux_nl, List.reverse_reverse]

theorem isPrefixOf_imp_le : ∀ (l1 l2 : List Char), l1.isPrefixOf l2 = true → l1.length ≤ l2.length := by
  intro l1
  induction l1 with
  | nil => intro l2 _; simp
  | cons a l ih =>
    intro l2 h
    cases l2 with
    | nil => simp [List.isPrefixOf] at h
    | cons b m =>
      simp only [List.isPrefixOf, Bool.and_eq_true] at h
      have := ih m h.2
      simp only [List.length_cons]
      omega

theorem firstOcc_isPrefix (sep : List Char) :
    ∀ (l : List Char) (i : Nat), firstOcc sep l = some i → sep.isPrefixOf (l.drop i) = true := by
  intro l
  induction l with
  | nil =>
    intro i h
    unfold firstOcc at h
    by_cases hs : sep.isEmpty
    · simp only [hs, if_true] at h
      cases h
      have : sep = [] := List.isEmpty_iff.mp hs
      subst this
      rfl
    · simp [hs] at h
  | cons c rest ih =>
    intro i h
    unfold firstOcc at h
    by_cases hp : sep.isPrefixOf (c :: rest) = true
    · simp only [hp, if_true] at h
      cases h
      exact hp
    · simp only [Bool.not_eq_true] at hp
      simp only [hp, Bool.false_eq_true, if_false, Option.map_eq_some'] at h
      obtain ⟨a, ha, hia⟩ := h
      subst hia
      rw [List.drop_succ_cons]
      exact ih a ha

theorem splitChars_succ (sep : List Char) (k : Nat) (l : List Char) :
    splitChars sep (k+1) l
      = match firstOcc sep l with
        | none => [l]
        | some i => l.take i :: splitChars sep k (l.drop (i + sep.length)) := rfl

/-- C3: metadata-block parsing returns an empty mapping when the document
does not start with the `---` delimiter, when the document contains fewer
than two (disjoint) delimiter occurrences, or when the YAML parse of the
middle part fails; on a well-formed block it returns the parsed mapping, so
exactly the keys declared in that block. -/
theorem parse_frontmatter_spec (safeLoad : String → Except Unit (Option Fm)) (content : String) :
    (pyStartsWith content "---" = false → parse_frontmatter safeLoad content = [])
      ∧ (hasTwoDelimsB content.data = false → parse_frontmatter safeLoad content = [])
      ∧ (∀ e : Unit, safeLoad ((pySplit content "---" 2).getD 1 "") = Except.error e →
          parse_frontmatter safeLoad content = [])
      ∧ (∀ fm : Fm, pyStartsWith content "---" = true →
          (pySplit content "---" 2).length = 3 →
          safeLoad ((pySplit content "---" 2).getD 1 "") = Except.ok (some fm) →
          parse_frontmatter safeLoad content = fm
            ∧ (parse_frontmatter safeLoad content).map Prod.fst = fm.map Prod.fst) := by
  refine ⟨?_, ?_, ?_, ?_⟩
  · intro h
    unfold parse_frontmatter
    simp [h]
  · intro h
    unfold parse_frontmatter
    by_cases h1 : pyStartsWith content "---" = true
    · simp only [h1, if_true]
      by_cases h2 : (pySplit content "---" 2).length < 3
      · simp [h2]
      · exfalso
        unfold pySplit at h2
        rw [List.length_map] at h2
        have e1 : splitChars "---".data 2 content.data
            = match firstOcc "---".data content.data with
              | none => [content.data]
              | some i =>
                content.data.take i :: splitChars "---".data 1 (content.data.drop (i + 3)) :=
          splitChars_succ "---".data 1 content.data
        rw [e1] at h2
        cases hf1 : firstOcc "---".data content.data with
        | none => rw [hf1] at h2; simp at h2
        | some i =>
          rw [hf1] at h2
          simp only [List.length_cons] at h2
          have e2 : splitChars "---".data 1 (content.data.drop (i + 3))
              = match firstOcc "---".data (content.data.drop (i + 3)) with
                | none => [content.data.drop (i + 3)]
                | some k => (content.data.drop (i + 3)).take k
                    :: splitChars "---".data 0 ((content.data.drop (i + 3)).drop (k + 3)) :=
            splitChars_succ "---".data 0 (content.data.drop (i + 3))
          rw [e2] at h2
          cases hf2 : firstOcc "---".data (content.data.drop (i + 3)) with
          | none => rw [hf2] at h2; simp at h2
          | some k =>
            have p1 := firstOcc_isPrefix "---".data content.data i hf1
            have p2 := firstOcc_isPrefix "---".data (content.data.drop (i + 3)) k hf2
            have hlen1 : 3 ≤ (content.data.drop i).length := by
              have := isPrefixOf_imp_le "---".data (content.data.drop i) p1
              simpa using this
            have hlen2 : 3 ≤ ((content.data.drop (i + 3)).drop k).length := by
              have := isPrefixOf_imp_le "---".data ((content.data.drop (i + 3)).drop k) p2
              simpa using this
            rw [List.drop_drop] at p2 hlen2
            rw [List.length_drop] at hlen1 hlen2
            have hi : i < content.data.length := by omega
            have hj : i + 3 + k < content.data.length := by omega
            have htwo : hasTwoDelimsB content.data = true := by
              unfold hasTwoDelimsB
              rw [List.any_eq_true]
              refine ⟨i, List.mem_range.mpr hi, ?_⟩
              rw [Bool.and_eq_true]
              refine ⟨p1, ?_⟩
              rw [List.any_eq_true]
              refine ⟨i + 3 + k, List.mem_range.mpr hj, ?_⟩
              rw [Bool.and_eq_true]
              refine ⟨?_, p2⟩
              rw [Nat.ble_eq]
              omega
            rw [h] at htwo
            exact absurd htwo (by decide)
    · simp only [Bool.not_eq_true] at h1
      simp [h1]
  · intro e he
    unfold parse_frontmatter
    by_cases h1 : pyStartsWith content "---" = true
    · simp only [h1, if_true]
      by_cases h2 : (pySplit content "---" 2).length < 3
      · simp [h2]
      · rw [if_neg h2, he]
    · simp only [Bool.not_eq_true] at h1
      simp [h1]
  · intro fm h1 h2 h3
    unfold parse_frontmatter
    simp only [h1, if_true]
    have h2' : ¬(pySplit content "---" 2).length < 3 := by omega
    rw [if_neg h2', h3]
    exact ⟨rfl, rfl⟩

/-- Witness for C3 at concrete inputs: a document with no leading delimiter,
a document with a single delimiter, and a well-formed two-delimiter document
whose declared key is `t`. -/
theorem parse_frontmatter_spec_witness :
    parse_frontmatter sampleLoad "x: 1" = []
      ∧ parse_frontmatter sampleLoad "---\nt: v" = []
      ∧ parse_frontmatter sampleLoad "---\nt: v\n---\nbody" = [("t", YamlVal.str "v")] :=
  ⟨(parse_frontmatter_spec sampleLoad "x: 1").1 (by decide),
   (parse_frontmatter_spec sampleLoad "---\nt: v").2.1 (by decide),
   ((parse_frontmatter_spec sampleLoad "---\nt: v\n---\nbody").2.2.2
       [("t", YamlVal.str "v")] (by decide) (by decide) rfl).1⟩
